import Mathlib

/-!
Verification of the FX rate caching/fallback service described in the
repository specification, and of the delivery-options summary component
(`src/frontend/src/components/Delivery/DeliveryOptionsSummary.tsx`).

The FX rate service itself ships no source in this snapshot, so its
operational model below is built from the specification text (sections
2-8); definitions carrying that caveat say so in their doc comments.
The frontend helpers are translated directly from the TSX source.
-/

/-- Modelled from the spec: the fixed enumerated set of supported
currencies, `{USD, GBP, EUR, AUD, MXN, JPY}` (spec section 6).  The FX
rate service source file is absent from the snapshot. -/
inductive Currency
  | USD
  | GBP
  | EUR
  | AUD
  | MXN
  | JPY
  deriving DecidableEq, Repr

/-- Modelled from the spec: the supported currency set as a list. -/
def supportedCurrencies : List Currency :=
  [Currency.USD, Currency.GBP, Currency.EUR, Currency.AUD, Currency.MXN, Currency.JPY]

/-- Modelled from the spec: the base currency is always USD (spec section 6). -/
def baseCurrency : Currency := Currency.USD

/-- Modelled from the spec: the target currency list sent to the provider,
i.e. every supported currency other than the base (spec section 6). -/
def targetCurrencies : List Currency :=
  supportedCurrencies.filter (fun c => decide (c ≠ baseCurrency))

/-- Modelled from the spec: the constant snapshot validity duration,
6 hours = 21600 seconds (spec section 3). -/
def defaultTtlSeconds : ℕ := 21600

/-- Modelled from the spec: a `RateSnapshot` with base currency, a rate
mapping, fetch timestamp (seconds), TTL and the stale flag (spec section 3).
Rates are kept as an association list so that "contains an entry for every
supported currency" is a real property of the data. -/
structure RateSnapshot where
  base_currency : Currency
  rates : List (Currency × ℚ)
  fetched_at : ℕ
  ttl_seconds : ℕ
  stale : Bool
  deriving DecidableEq, Repr

/-- Modelled from the spec: a raw provider payload value, which is either a
numeric rate or some non-numeric value (spec section 7 distinguishes
"non-numeric rate" payload entries). -/
inductive JsonValue
  | num (q : ℚ)
  | str (s : String)
  deriving DecidableEq, Repr

/-- Modelled from the spec: the outcome of the single bounded provider call
made per invocation: a network-level failure (network error, non-success
response or timeout) or a raw payload keyed by currency (spec sections 4-7). -/
inductive ProviderResponse
  | failure
  | payload (entries : List (Currency × JsonValue))
  deriving DecidableEq, Repr

/-- Modelled from the spec: the failure surfaced to the caller when no
snapshot exists in any tier and the provider is unreachable (spec section 7). -/
inductive FxError
  | RatesUnavailable
  deriving DecidableEq, Repr

/-- Modelled from the spec: the service state, a memory tier and a
persistent tier, each optionally holding a snapshot (spec section 2). -/
structure ServiceState where
  memory : Option RateSnapshot
  persistent : Option RateSnapshot
  deriving DecidableEq, Repr

/-- Modelled from the spec: the cold-start state, both tiers empty
(spec section 9: memory tier empty on startup). -/
def emptyState : ServiceState := ⟨none, none⟩

/-- Modelled from the spec: look a currency up in a raw provider payload. -/
def lookupEntry (entries : List (Currency × JsonValue)) (c : Currency) : Option JsonValue :=
  (entries.find? (fun p => decide (p.1 = c))).map (fun p => p.2)

/-- Modelled from the spec: validate a raw payload against a list of
expected currencies; a missing key or a non-numeric rate makes the payload
malformed (`none`), mirroring `ProviderMalformedResponse` (spec section 7). -/
def parseTargets (entries : List (Currency × JsonValue)) :
    List Currency → Option (List (Currency × ℚ))
  | [] => some []
  | c :: cs =>
    match lookupEntry entries c with
    | some (JsonValue.num q) => (parseTargets entries cs).map (fun ts => (c, q) :: ts)
    | _ => none

/-- Modelled from the spec: validate a raw payload against the full target
currency list. -/
def parsePayload (entries : List (Currency × JsonValue)) : Option (List (Currency × ℚ)) :=
  parseTargets entries targetCurrencies

/-- Modelled from the spec: the provider call as seen by `get_rates`:
`none` on network failure, non-success response or malformed payload
(treated identically, spec section 7), otherwise the validated rate list
with the base currency's own rate fixed at 1.0 (spec section 3). -/
def fetchRates : ProviderResponse → Option (List (Currency × ℚ))
  | ProviderResponse.failure => none
  | ProviderResponse.payload entries =>
    (parsePayload entries).map (fun ts => (baseCurrency, 1) :: ts)

/-- Modelled from the spec: look a currency's rate up in a snapshot. -/
def lookupRate (s : RateSnapshot) (c : Currency) : Option ℚ :=
  (s.rates.find? (fun p => decide (p.1 = c))).map (fun p => p.2)

/-- Modelled from the spec: a snapshot is fresh when its age is strictly
below its TTL (spec section 4.1, steps 1-2: "younger than ttl_seconds"). -/
def isFresh (s : RateSnapshot) (now : ℕ) : Bool :=
  decide (now - s.fetched_at < s.ttl_seconds)

/-- Modelled from the spec: steps 3-5 of `get_rates` (spec section 4.1).
On provider success build a fresh snapshot, write it to both tiers and
return it; on provider failure fall back to the persistent tier's snapshot
marked stale, populating memory; with nothing to fall back on, fail with
`RatesUnavailable`. -/
def stepProvider (st : ServiceState) (resp : ProviderResponse) (now : ℕ) :
    Except FxError RateSnapshot × ServiceState :=
  match fetchRates resp with
  | some rs =>
    let snap : RateSnapshot :=
      { base_currency := baseCurrency, rates := rs, fetched_at := now,
        ttl_seconds := defaultTtlSeconds, stale := false }
    (Except.ok snap, { memory := some snap, persistent := some snap })
  | none =>
    match st.persistent with
    | some p =>
      let s := { p with stale := true }
      (Except.ok s, { st with memory := some s })
    | none => (Except.error FxError.RatesUnavailable, st)

/-- Modelled from the spec: step 2 of `get_rates` (spec section 4.1): a
fresh snapshot found in the persistent tier populates the memory tier and
is returned; otherwise the provider is consulted. -/
def stepPersistent (st : ServiceState) (resp : ProviderResponse) (now : ℕ) :
    Except FxError RateSnapshot × ServiceState :=
  match st.persistent with
  | some p =>
    if isFresh p now then
      let f := { p with stale := false }
      (Except.ok f, { st with memory := some f })
    else stepProvider st resp now
  | none => stepProvider st resp now

/-- Modelled from the spec: the `get_rates()` operation (spec section 4.1).
The provider outcome for this invocation and the current time are explicit
arguments; the result pairs the response (snapshot or failure) with the
post-state of the two tiers.  Step 1: a fresh memory snapshot is returned
immediately with `stale = false` and no other work happens. -/
def get_rates (st : ServiceState) (resp : ProviderResponse) (now : ℕ) :
    Except FxError RateSnapshot × ServiceState :=
  match st.memory with
  | some m =>
    if isFresh m now then (Except.ok { m with stale := false }, st)
    else stepPersistent st resp now
  | none => stepPersistent st resp now

/-- A snapshot covers the supported set: every supported currency has an
entry and the base currency's rate is exactly 1 (spec section 3 invariants). -/
def snapshotCovers (s : RateSnapshot) : Prop :=
  (∀ c ∈ supportedCurrencies, (lookupRate s c).isSome = true) ∧
  lookupRate s baseCurrency = some 1

/-- Every rate entry of the snapshot is strictly positive. -/
def snapshotPos (s : RateSnapshot) : Prop :=
  ∀ p ∈ s.rates, 0 < p.2

/-- Both tiers hold only covering snapshots. -/
def stateCovers (st : ServiceState) : Prop :=
  (∀ m, st.memory = some m → snapshotCovers m) ∧
  (∀ p, st.persistent = some p → snapshotCovers p)

/-- Both tiers hold only positive-rate snapshots. -/
def statePos (st : ServiceState) : Prop :=
  (∀ m, st.memory = some m → snapshotPos m) ∧
  (∀ p, st.persistent = some p → snapshotPos p)

/-- A payload entry is positive when its value, if numeric, is positive. -/
def entryPos : Currency × JsonValue → Prop
  | (_, JsonValue.num q) => 0 < q
  | (_, JsonValue.str _) => True

instance : DecidablePred entryPos := fun e =>
  match e with
  | (_, JsonValue.num q) => inferInstanceAs (Decidable (0 < q))
  | (_, JsonValue.str _) => inferInstanceAs (Decidable True)

/-- Modelled from the spec: the provider contract — every numeric rate a
payload carries is a positive conversion factor (spec sections 3 and 6). -/
def providerPos : ProviderResponse → Prop
  | ProviderResponse.failure => True
  | ProviderResponse.payload entries => ∀ e ∈ entries, entryPos e

/-- Sample well-formed provider payload used by concrete witnesses. -/
def samplePayload : List (Currency × JsonValue) :=
  [(Currency.GBP, JsonValue.num 2), (Currency.EUR, JsonValue.num 3),
   (Currency.AUD, JsonValue.num 4), (Currency.MXN, JsonValue.num 5),
   (Currency.JPY, JsonValue.num 6)]

/-- Validated rate list extracted from `samplePayload`. -/
def sampleTargets : List (Currency × ℚ) :=
  [(Currency.GBP, 2), (Currency.EUR, 3), (Currency.AUD, 4),
   (Currency.MXN, 5), (Currency.JPY, 6)]

/-- The snapshot `get_rates` builds from `samplePayload` at time 0. -/
def sampleSnap : RateSnapshot :=
  { base_currency := Currency.USD,
    rates := [(Currency.USD, 1), (Currency.GBP, 2), (Currency.EUR, 3),
              (Currency.AUD, 4), (Currency.MXN, 5), (Currency.JPY, 6)],
    fetched_at := 0, ttl_seconds := 21600, stale := false }

/-! Frontend component, translated from
`src/frontend/src/components/Delivery/DeliveryOptionsSummary.tsx`.
Prices are modelled as rationals and day counts as integers. -/

/-- Rounding used by `Number.toFixed`: the integer nearest to `x`, ties
going to the larger integer. -/
def roundHalfUp (x : ℚ) : ℤ := (x + 1 / 2).floor

/-- Render `m` (expected `< 100`) as exactly two decimal digit characters. -/
def twoDigits (m : ℕ) : String :=
  String.mk [Nat.digitChar (m / 10), Nat.digitChar (m % 10)]

/-- Rendering of `x.toFixed(2)` over exact rationals: optional minus sign, the integer
part in decimal, a point, and exactly two fractional digits. -/
def toFixed2 (x : ℚ) : String :=
  (if x < 0 then "-" else "") ++
    Nat.repr ((roundHalfUp (|x| * 100)).toNat / 100) ++ "." ++
    twoDigits ((roundHalfUp (|x| * 100)).toNat % 100)

/-- Function `formatPrice` from DeliveryOptionsSummary.tsx lines 8-10:
zero renders as "Free", anything else as a dollar sign followed by
`price.toFixed(2)`. -/
def formatPrice (price : ℚ) : String :=
  if price = 0 then "Free" else "$" ++ toFixed2 price

/-- Function `formatEta` from DeliveryOptionsSummary.tsx lines 12-17. -/
def formatEta (min max : ℤ) : String :=
  if min = max then
    if min = 0 then "Same day"
    else if min = 1 then "1 day"
    else toString min ++ " days"
  else toString min ++ "–" ++ toString max ++ " days"

/-- The `DeliverySummary` shape consumed by the component (fields used in
DeliveryOptionsSummary.tsx). -/
structure DeliverySummary where
  has_free : Bool
  options_count : ℤ
  cheapest_price : ℚ
  fastest_days_min : ℤ
  fastest_days_max : ℤ
  deriving DecidableEq, Repr

/-- The observable render result of the component: either the free-delivery
badge (with an optional ETA text) or the priced line (with an optional ETA
text). -/
inductive RenderedSummary
  | freeBadge (eta : Option String)
  | priced (price : String) (eta : Option String)
  deriving DecidableEq, Repr

/-- The `DeliveryOptionsSummary` component from DeliveryOptionsSummary.tsx
lines 19-49: a missing (`null`/`undefined`) summary renders nothing;
otherwise the free-delivery badge branch (ETA shown when more than one
option) or the priced branch (ETA shown when `fastest_days_min > 0`). -/
def DeliveryOptionsSummary (summary : Option DeliverySummary) : Option RenderedSummary :=
  match summary with
  | none => none
  | some s =>
    if s.has_free then
      some (RenderedSummary.freeBadge
        (if 1 < s.options_count then
          some (formatEta s.fastest_days_min s.fastest_days_max) else none))
    else
      some (RenderedSummary.priced ("Delivery from " ++ formatPrice s.cheapest_price)
        (if 0 < s.fastest_days_min then
          some (formatEta s.fastest_days_min s.fastest_days_max) else none))

/-! Theorems. -/

/-- C1: from a state with no snapshot in the memory tier nor the persistent
tier, a failing provider call makes `get_rates` fail with `RatesUnavailable`
and return no snapshot (the state is unchanged). -/
theorem get_rates_cold_failure (resp : ProviderResponse) (now : ℕ)
    (h : fetchRates resp = none) :
    get_rates emptyState resp now = (Except.error FxError.RatesUnavailable, emptyState) := by
  simp [get_rates, emptyState, stepPersistent, stepProvider, h]

/-- C1 witness: concrete cold start with an unreachable provider. -/
theorem get_rates_cold_failure_witness :
    get_rates emptyState ProviderResponse.failure 0 =
      (Except.error FxError.RatesUnavailable, emptyState) :=
  get_rates_cold_failure ProviderResponse.failure 0 rfl

/-- C5: whenever the memory tier holds a snapshot that is fresh (age below
its TTL), `get_rates` returns exactly that snapshot with `stale = false`,
for every provider outcome (so no provider call is consulted), and leaves
both tiers unchanged. -/
theorem get_rates_memory_fresh (st : ServiceState) (m : RateSnapshot)
    (resp : ProviderResponse) (now : ℕ)
    (hm : st.memory = some m) (hf : isFresh m now = true) :
    get_rates st resp now = (Except.ok { m with stale := false }, st) := by
  obtain ⟨mem, per⟩ := st
  simp only [ServiceState.memory] at hm
  subst hm
  simp [get_rates, hf]

/-- C5 witness: a fresh memory snapshot at time 0 is served as-is. -/
theorem get_rates_memory_fresh_witness :
    isFresh sampleSnap 0 = true ∧
    get_rates ⟨some sampleSnap, none⟩ ProviderResponse.failure 0 =
      (Except.ok { sampleSnap with stale := false }, ⟨some sampleSnap, none⟩) :=
  ⟨by decide,
   get_rates_memory_fresh ⟨some sampleSnap, none⟩ sampleSnap
     ProviderResponse.failure 0 rfl (by decide)⟩

/-- C7: a provider payload that fails validation (missing currency key or
non-numeric rate) makes `get_rates` behave exactly as a provider network
failure does: same returned value and same post-state, on every starting
state. -/
theorem get_rates_malformed_eq_unavailable (st : ServiceState)
    (entries : List (Currency × JsonValue)) (now : ℕ)
    (h : parsePayload entries = none) :
    get_rates st (ProviderResponse.payload entries) now =
      get_rates st ProviderResponse.failure now := by
  have hf : fetchRates (ProviderResponse.payload entries) = none := by
    simp [fetchRates, h]
  obtain ⟨mem, per⟩ := st
  cases mem <;> cases per <;>
    simp [get_rates, stepPersistent, stepProvider, hf, fetchRates, h]

/-- C7 witness: a concrete malformed payload (missing keys, non-numeric
rate) against the cold state behaves like a network failure. -/
theorem get_rates_malformed_eq_unavailable_witness :
    parsePayload [(Currency.GBP, JsonValue.str "NaN")] = none ∧
    get_rates emptyState (ProviderResponse.payload [(Currency.GBP, JsonValue.str "NaN")]) 0 =
      get_rates emptyState ProviderResponse.failure 0 :=
  ⟨by decide,
   get_rates_malformed_eq_unavailable emptyState
     [(Currency.GBP, JsonValue.str "NaN")] 0 (by decide)⟩

/-- Helper: a cold-start call with a payload passing validation builds the
snapshot from the validated rates, stamps it with the call time and the
constant TTL, marks it not stale, and writes it to both tiers. -/
theorem get_rates_cold_success (es : List (Currency × JsonValue))
    (ts : List (Currency × ℚ)) (t : ℕ) (hp : parsePayload es = some ts) :
    get_rates emptyState (ProviderResponse.payload es) t =
      (Except.ok ⟨baseCurrency, (baseCurrency, 1) :: ts, t, defaultTtlSeconds, false⟩,
       ⟨some ⟨baseCurrency, (baseCurrency, 1) :: ts, t, defaultTtlSeconds, false⟩,
        some ⟨baseCurrency, (baseCurrency, 1) :: ts, t, defaultTtlSeconds, false⟩⟩) := by
  simp [get_rates, emptyState, stepPersistent, stepProvider, fetchRates, hp]

/-- C2: after a successful fetch, a later call whose provider call fails
(the retained snapshot having expired, so the provider is actually
consulted) returns exactly the previously fetched snapshot — every field
unchanged except the stale flag, which becomes true — and retains it in
both tiers rather than discarding it. -/
theorem get_rates_stale_fallback (es : List (Currency × JsonValue))
    (ts : List (Currency × ℚ)) (t₁ t₂ : ℕ) (snap₁ : RateSnapshot) (st₁ : ServiceState)
    (hp : parsePayload es = some ts)
    (hexp : defaultTtlSeconds ≤ t₂ - t₁)
    (h₁ : get_rates emptyState (ProviderResponse.payload es) t₁ = (Except.ok snap₁, st₁)) :
    get_rates st₁ ProviderResponse.failure t₂ =
      (Except.ok { snap₁ with stale := true },
       ⟨some { snap₁ with stale := true }, some snap₁⟩) := by
  rw [get_rates_cold_success es ts t₁ hp] at h₁
  simp only [Prod.mk.injEq, Except.ok.injEq] at h₁
  obtain ⟨hsnap, hst⟩ := h₁
  subst hsnap
  subst hst
  have hexp' : 21600 ≤ t₂ - t₁ := hexp
  have hfr : isFresh
      (⟨baseCurrency, (baseCurrency, 1) :: ts, t₁, defaultTtlSeconds, false⟩ : RateSnapshot)
      t₂ = false := by
    simp [isFresh, defaultTtlSeconds]
    omega
  simp [get_rates, hfr, stepPersistent, stepProvider, fetchRates]

/-- C2 witness: fetch at time 0, failing refetch at time 21600 returns the
same rates with the stale flag set. -/
theorem get_rates_stale_fallback_witness :
    parsePayload samplePayload = some sampleTargets ∧
    defaultTtlSeconds ≤ 21600 - 0 ∧
    get_rates ⟨some sampleSnap, some sampleSnap⟩ ProviderResponse.failure 21600 =
      (Except.ok { sampleSnap with stale := true },
       ⟨some { sampleSnap with stale := true }, some sampleSnap⟩) :=
  ⟨by decide, by decide,
   get_rates_stale_fallback samplePayload sampleTargets 0 21600 sampleSnap
     ⟨some sampleSnap, some sampleSnap⟩ (by decide) (by decide) rfl⟩

/-- C6: a call made within `ttl_seconds` of a prior successful fetch
returns the identical snapshot (byte-identical rate values), leaves both
tiers unchanged, and its result does not depend on the provider outcome at
all — no provider call is consulted. -/
theorem get_rates_no_provider_within_ttl (es : List (Currency × JsonValue))
    (ts : List (Currency × ℚ)) (t₁ t₂ : ℕ) (resp₂ : ProviderResponse)
    (snap₁ : RateSnapshot) (st₁ : ServiceState)
    (hp : parsePayload es = some ts)
    (hfr : t₂ - t₁ < defaultTtlSeconds)
    (h₁ : get_rates emptyState (ProviderResponse.payload es) t₁ = (Except.ok snap₁, st₁)) :
    get_rates st₁ resp₂ t₂ = (Except.ok snap₁, st₁) := by
  rw [get_rates_cold_success es ts t₁ hp] at h₁
  simp only [Prod.mk.injEq, Except.ok.injEq] at h₁
  obtain ⟨hsnap, hst⟩ := h₁
  subst hsnap
  subst hst
  have hfr' : t₂ - t₁ < 21600 := hfr
  have hf : isFresh
      (⟨baseCurrency, (baseCurrency, 1) :: ts, t₁, defaultTtlSeconds, false⟩ : RateSnapshot)
      t₂ = true := by
    simp [isFresh, defaultTtlSeconds]
    omega
  simp [get_rates, hf]

/-- C6 witness: fetch at time 0, second call at time 1 returns the same
snapshot and state for a failing provider, with no provider dependence. -/
theorem get_rates_no_provider_within_ttl_witness :
    (1 : ℕ) - 0 < defaultTtlSeconds ∧
    get_rates ⟨some sampleSnap, some sampleSnap⟩ ProviderResponse.failure 1 =
      (Except.ok sampleSnap, ⟨some sampleSnap, some sampleSnap⟩) :=
  ⟨by decide,
   get_rates_no_provider_within_ttl samplePayload sampleTargets 0 1
     ProviderResponse.failure sampleSnap ⟨some sampleSnap, some sampleSnap⟩
     (by decide) (by decide) rfl⟩

/-- Helper: setting the stale flag does not change rate lookups. -/
theorem lookupRate_stale (s : RateSnapshot) (b : Bool) (c : Currency) :
    lookupRate { s with stale := b } c = lookupRate s c := rfl

/-- Helper: setting the stale flag preserves coverage. -/
theorem snapshotCovers_stale (s : RateSnapshot) (b : Bool) :
    snapshotCovers { s with stale := b } ↔ snapshotCovers s := Iff.rfl

/-- Helper: setting the stale flag preserves positivity. -/
theorem snapshotPos_stale (s : RateSnapshot) (b : Bool) :
    snapshotPos { s with stale := b } ↔ snapshotPos s := Iff.rfl

/-- Helper: a key present among an association list's keys is found. -/
theorem find_isSome_of_mem_keys (l : List (Currency × ℚ)) (c : Currency)
    (h : c ∈ l.map Prod.fst) :
    (l.find? (fun p => decide (p.1 = c))).isSome = true := by
  induction l with
  | nil => simp at h
  | cons a t ih =>
    rw [List.map_cons, List.mem_cons] at h
    by_cases hc : a.1 = c
    · rw [List.find?_cons_of_pos _ (by simp [hc])]
      rfl
    · rcases h with h | h
      · exact absurd h.symm hc
      · rw [List.find?_cons_of_neg _ (by simp [hc])]
        exact ih h

/-- Helper: a validated payload yields exactly the requested keys, in order. -/
theorem parseTargets_keys (entries : List (Currency × JsonValue)) :
    ∀ (cs : List Currency) (ts : List (Currency × ℚ)),
      parseTargets entries cs = some ts → ts.map Prod.fst = cs := by
  intro cs
  induction cs with
  | nil =>
    intro ts h
    simp only [parseTargets, Option.some.injEq] at h
    subst h
    rfl
  | cons c cs ih =>
    intro ts h
    simp only [parseTargets] at h
    split at h
    · rename_i q heq
      rw [Option.map_eq_some'] at h
      obtain ⟨ts', hts', rfl⟩ := h
      simp [ih ts' hts']
    · simp at h

/-- Helper: a validated payload from a positive-rate provider yields only
positive rates. -/
theorem parseTargets_pos (entries : List (Currency × JsonValue))
    (hq : ∀ e ∈ entries, entryPos e) :
    ∀ (cs : List Currency) (ts : List (Currency × ℚ)),
      parseTargets entries cs = some ts → ∀ p ∈ ts, 0 < p.2 := by
  intro cs
  induction cs with
  | nil =>
    intro ts h
    simp only [parseTargets, Option.some.injEq] at h
    subst h
    simp
  | cons c cs ih =>
    intro ts h
    simp only [parseTargets] at h
    split at h
    · rename_i q heq
      rw [Option.map_eq_some'] at h
      obtain ⟨ts', hts', rfl⟩ := h
      intro p hp
      rcases List.mem_cons.mp hp with rfl | hp'
      · rw [lookupEntry, Option.map_eq_some'] at heq
        obtain ⟨e, hfind, he2⟩ := heq
        obtain ⟨a, b⟩ := e
        have hb : b = JsonValue.num q := he2
        subst hb
        exact hq (a, JsonValue.num q) (List.mem_of_find?_eq_some hfind)
      · exact ih ts' hts' p hp'
    · simp at h

/-- Helper: the snapshot built from a validated payload covers every
supported currency and carries rate 1 for the base currency. -/
theorem fetched_covers (entries : List (Currency × JsonValue))
    (ts : List (Currency × ℚ)) (t ttl : ℕ)
    (hp : parsePayload entries = some ts) :
    snapshotCovers ⟨baseCurrency, (baseCurrency, 1) :: ts, t, ttl, false⟩ := by
  have hkeys : ts.map Prod.fst = targetCurrencies :=
    parseTargets_keys entries targetCurrencies ts hp
  have hbase : (((baseCurrency, (1 : ℚ)) :: ts).find?
      (fun p => decide (p.1 = baseCurrency))) = some (baseCurrency, 1) :=
    List.find?_cons_of_pos _ (by simp)
  constructor
  · intro c hc
    by_cases hbc : c = baseCurrency
    · subst hbc
      simp [lookupRate, hbase]
    · have hct : c ∈ targetCurrencies := by
        rw [targetCurrencies, List.mem_filter]
        simp [hc, hbc]
      have hmem : c ∈ ((baseCurrency, (1 : ℚ)) :: ts).map Prod.fst := by
        rw [List.map_cons]
        exact List.mem_cons_of_mem _ (by rw [hkeys]; exact hct)
      have := find_isSome_of_mem_keys _ c hmem
      simp only [lookupRate, Option.isSome_map']
      exact this
  · simp [lookupRate, hbase]

/-- Helper: the snapshot built from a validated positive payload has only
positive rates. -/
theorem fetched_pos (entries : List (Currency × JsonValue))
    (ts : List (Currency × ℚ)) (t ttl : ℕ)
    (hq : ∀ e ∈ entries, entryPos e)
    (hp : parsePayload entries = some ts) :
    snapshotPos ⟨baseCurrency, (baseCurrency, 1) :: ts, t, ttl, false⟩ := by
  intro p hp'
  rcases List.mem_cons.mp hp' with rfl | hmem
  · norm_num
  · exact parseTargets_pos entries hq targetCurrencies ts hp p hmem

/-- Helper: steps 3-5 return only covering snapshots and preserve tier
coverage. -/
theorem stepProvider_covers (st : ServiceState) (resp : ProviderResponse)
    (now : ℕ) (snap : RateSnapshot) (st' : ServiceState)
    (hst : stateCovers st)
    (h : stepProvider st resp now = (Except.ok snap, st')) :
    snapshotCovers snap ∧ stateCovers st' := by
  unfold stepProvider at h
  split at h
  · rename_i rs hf
    cases resp with
    | failure => simp [fetchRates] at hf
    | payload entries =>
      rw [fetchRates, Option.map_eq_some'] at hf
      obtain ⟨ts, hts, rfl⟩ := hf
      simp only [Prod.mk.injEq, Except.ok.injEq] at h
      obtain ⟨rfl, rfl⟩ := h
      have hcov := fetched_covers entries ts now defaultTtlSeconds hts
      refine ⟨hcov, ?_, ?_⟩
      · intro m hm
        injection hm with hm
        subst hm
        exact hcov
      · intro p hp
        injection hp with hp
        subst hp
        exact hcov
  · rename_i hf
    split at h
    · rename_i p hp
      simp only [Prod.mk.injEq, Except.ok.injEq] at h
      obtain ⟨rfl, rfl⟩ := h
      have hcov := (snapshotCovers_stale p true).mpr (hst.2 p hp)
      refine ⟨hcov, ?_, ?_⟩
      · intro m hm
        injection hm with hm
        subst hm
        exact hcov
      · intro q hq2
        exact hst.2 q hq2
    · rename_i hp
      injection h with h1 h2
      exact Except.noConfusion h1

/-- Helper: step 2 returns only covering snapshots and preserves tier
coverage. -/
theorem stepPersistent_covers (st : ServiceState) (resp : ProviderResponse)
    (now : ℕ) (snap : RateSnapshot) (st' : ServiceState)
    (hst : stateCovers st)
    (h : stepPersistent st resp now = (Except.ok snap, st')) :
    snapshotCovers snap ∧ stateCovers st' := by
  unfold stepPersistent at h
  split at h
  · rename_i p hp
    split at h
    · simp only [Prod.mk.injEq, Except.ok.injEq] at h
      obtain ⟨rfl, rfl⟩ := h
      have hcov := (snapshotCovers_stale p false).mpr (hst.2 p hp)
      refine ⟨hcov, ?_, ?_⟩
      · intro m hm
        injection hm with hm
        subst hm
        exact hcov
      · intro q hq2
        exact hst.2 q hq2
    · exact stepProvider_covers st resp now snap st' hst h
  · exact stepProvider_covers st resp now snap st' hst h

/-- C3: starting from tiers holding only covering snapshots (true of the
empty cold-start state), every snapshot `get_rates` returns has an entry
for every supported currency, the base currency's entry is exactly 1, and
both tiers still hold only covering snapshots afterwards. -/
theorem get_rates_covers_supported (st : ServiceState) (resp : ProviderResponse)
    (now : ℕ) (snap : RateSnapshot) (st' : ServiceState)
    (hst : stateCovers st)
    (h : get_rates st resp now = (Except.ok snap, st')) :
    ((∀ c ∈ supportedCurrencies, (lookupRate snap c).isSome = true) ∧
      lookupRate snap baseCurrency = some 1) ∧ stateCovers st' := by
  have main : snapshotCovers snap ∧ stateCovers st' := by
    unfold get_rates at h
    split at h
    · rename_i m hm
      split at h
      · simp only [Prod.mk.injEq, Except.ok.injEq] at h
        obtain ⟨rfl, rfl⟩ := h
        exact ⟨(snapshotCovers_stale m false).mpr (hst.1 m hm), hst⟩
      · exact stepPersistent_covers st resp now snap st' hst h
    · exact stepPersistent_covers st resp now snap st' hst h
  exact ⟨main.1, main.2⟩

/-- C3 witness: the snapshot returned on a concrete cold-start fetch covers
all six currencies with base rate 1. -/
theorem get_rates_covers_supported_witness :
    stateCovers emptyState ∧
    ((∀ c ∈ supportedCurrencies, (lookupRate sampleSnap c).isSome = true) ∧
      lookupRate sampleSnap baseCurrency = some 1) ∧
    stateCovers ⟨some sampleSnap, some sampleSnap⟩ := by
  have hst : stateCovers emptyState := ⟨fun m hm => (nomatch hm), fun p hp => (nomatch hp)⟩
  have main := get_rates_covers_supported emptyState
    (ProviderResponse.payload samplePayload) 0 sampleSnap
    ⟨some sampleSnap, some sampleSnap⟩ hst rfl
  exact ⟨hst, main.1, main.2⟩

/-- Helper: steps 3-5 return only positive-rate snapshots and preserve tier
positivity, given the provider contract. -/
theorem stepProvider_pos (st : ServiceState) (resp : ProviderResponse)
    (now : ℕ) (snap : RateSnapshot) (st' : ServiceState)
    (hst : statePos st) (hpr : providerPos resp)
    (h : stepProvider st resp now = (Except.ok snap, st')) :
    snapshotPos snap ∧ statePos st' := by
  unfold stepProvider at h
  split at h
  · rename_i rs hf
    cases resp with
    | failure => simp [fetchRates] at hf
    | payload entries =>
      rw [fetchRates, Option.map_eq_some'] at hf
      obtain ⟨ts, hts, rfl⟩ := hf
      simp only [Prod.mk.injEq, Except.ok.injEq] at h
      obtain ⟨rfl, rfl⟩ := h
      have hpos := fetched_pos entries ts now defaultTtlSeconds hpr hts
      refine ⟨hpos, ?_, ?_⟩
      · intro m hm
        injection hm with hm
        subst hm
        exact hpos
      · intro p hp
        injection hp with hp
        subst hp
        exact hpos
  · rename_i hf
    split at h
    · rename_i p hp
      simp only [Prod.mk.injEq, Except.ok.injEq] at h
      obtain ⟨rfl, rfl⟩ := h
      have hpos := (snapshotPos_stale p true).mpr (hst.2 p hp)
      refine ⟨hpos, ?_, ?_⟩
      · intro m hm
        injection hm with hm
        subst hm
        exact hpos
      · intro q hq2
        exact hst.2 q hq2
    · rename_i hp
      injection h with h1 h2
      exact Except.noConfusion h1

/-- Helper: step 2 returns only positive-rate snapshots and preserves tier
positivity. -/
theorem stepPersistent_pos (st : ServiceState) (resp : ProviderResponse)
    (now : ℕ) (snap : RateSnapshot) (st' : ServiceState)
    (hst : statePos st) (hpr : providerPos resp)
    (h : stepPersistent st resp now = (Except.ok snap, st')) :
    snapshotPos snap ∧ statePos st' := by
  unfold stepPersistent at h
  split at h
  · rename_i p hp
    split at h
    · simp only [Prod.mk.injEq, Except.ok.injEq] at h
      obtain ⟨rfl, rfl⟩ := h
      have hpos := (snapshotPos_stale p false).mpr (hst.2 p hp)
      refine ⟨hpos, ?_, ?_⟩
      · intro m hm
        injection hm with hm
        subst hm
        exact hpos
      · intro q hq2
        exact hst.2 q hq2
    · exact stepProvider_pos st resp now snap st' hst hpr h
  · exact stepProvider_pos st resp now snap st' hst hpr h

/-- C4: starting from tiers holding only positive-rate snapshots (true of
the empty cold-start state), and given the provider contract that payload
rates are positive, every supported currency's rate in a returned snapshot
is strictly positive, and both tiers keep only positive-rate snapshots. -/
theorem get_rates_rates_pos (st : ServiceState) (resp : ProviderResponse)
    (now : ℕ) (snap : RateSnapshot) (st' : ServiceState)
    (hst : statePos st) (hpr : providerPos resp)
    (h : get_rates st resp now = (Except.ok snap, st')) :
    (∀ c ∈ supportedCurrencies, ∀ q, lookupRate snap c = some q → 0 < q) ∧
      statePos st' := by
  have main : snapshotPos snap ∧ statePos st' := by
    unfold get_rates at h
    split at h
    · rename_i m hm
      split at h
      · simp only [Prod.mk.injEq, Except.ok.injEq] at h
        obtain ⟨rfl, rfl⟩ := h
        exact ⟨(snapshotPos_stale m false).mpr (hst.1 m hm), hst⟩
      · exact stepPersistent_pos st resp now snap st' hst hpr h
    · exact stepPersistent_pos st resp now snap st' hst hpr h
  refine ⟨?_, main.2⟩
  intro c hc q hlq
  rw [lookupRate, Option.map_eq_some'] at hlq
  obtain ⟨e, hfind, he2⟩ := hlq
  have := main.1 e (List.mem_of_find?_eq_some hfind)
  exact he2 ▸ this

/-- C4 witness: all six rates of the concretely fetched snapshot are
positive. -/
theorem get_rates_rates_pos_witness :
    statePos emptyState ∧ providerPos (ProviderResponse.payload samplePayload) ∧
    ((∀ c ∈ supportedCurrencies, ∀ q, lookupRate sampleSnap c = some q → 0 < q) ∧
      statePos ⟨some sampleSnap, some sampleSnap⟩) := by
  have hst : statePos emptyState := ⟨fun m hm => (nomatch hm), fun p hp => (nomatch hp)⟩
  have hpr : providerPos (ProviderResponse.payload samplePayload) := by
    unfold providerPos
    decide
  have main := get_rates_rates_pos emptyState
    (ProviderResponse.payload samplePayload) 0 sampleSnap
    ⟨some sampleSnap, some sampleSnap⟩ hst hpr rfl
  exact ⟨hst, hpr, main.1, main.2⟩

/-- Helper: a string starting with a dollar sign is never "Free". -/
theorem dollar_append_ne_free (s : String) : "$" ++ s ≠ "Free" := by
  intro h
  have hd := congrArg String.data h
  rw [String.data_append] at hd
  have hd2 : '$' :: s.data = ['F', 'r', 'e', 'e'] := hd
  injection hd2 with h1 h2
  exact absurd h1 (by decide)

/-- Helper: `Nat.digitChar` yields a decimal digit character below 10. -/
theorem digitChar_isDigit (m : ℕ) (h : m < 10) : (Nat.digitChar m).isDigit = true := by
  interval_cases m <;> decide

/-- C8: `formatPrice` returns "Free" exactly when the price is zero, and
otherwise returns a dollar sign, the (possibly signed) integer part, a
decimal point, and exactly two digit characters. -/
theorem formatPrice_spec (price : ℚ) :
    (formatPrice price = "Free" ↔ price = 0) ∧
    (price ≠ 0 → ∃ d₁ d₂ : Char, d₁.isDigit = true ∧ d₂.isDigit = true ∧
      formatPrice price =
        "$" ++ (if price < 0 then "-" else "") ++
          Nat.repr ((roundHalfUp (|price| * 100)).toNat / 100) ++ "." ++
          String.mk [d₁, d₂]) := by
  constructor
  · constructor
    · intro h
      by_contra hne
      rw [formatPrice, if_neg hne] at h
      exact dollar_append_ne_free _ h
    · intro h
      rw [formatPrice, if_pos h]
  · intro hne
    refine ⟨Nat.digitChar ((roundHalfUp (|price| * 100)).toNat % 100 / 10),
      Nat.digitChar ((roundHalfUp (|price| * 100)).toNat % 100 % 10), ?_, ?_, ?_⟩
    · exact digitChar_isDigit _ (by omega)
    · exact digitChar_isDigit _ (by omega)
    · rw [formatPrice, if_neg hne, toFixed2, twoDigits]
      simp [String.append_assoc]

/-- C8 witness: the nonzero price 5/2 renders as a dollar amount with two
decimal digits. -/
theorem formatPrice_spec_witness :
    (5 : ℚ) / 2 ≠ 0 ∧ ∃ d₁ d₂ : Char, d₁.isDigit = true ∧ d₂.isDigit = true ∧
      formatPrice ((5 : ℚ) / 2) =
        "$" ++ (if (5 : ℚ) / 2 < 0 then "-" else "") ++
          Nat.repr ((roundHalfUp (|(5 : ℚ) / 2| * 100)).toNat / 100) ++ "." ++
          String.mk [d₁, d₂] :=
  ⟨by norm_num, (formatPrice_spec ((5 : ℚ) / 2)).2 (by norm_num)⟩

/-- C9: `formatEta` renders "Same day" for an equal pair of zeros, "1 day"
for an equal pair of ones, the count plus " days" for any other equal pair,
and the dash-separated range plus " days" whenever the bounds differ. -/
theorem formatEta_spec (min max : ℤ) :
    (min = max ∧ min = 0 → formatEta min max = "Same day") ∧
    (min = max ∧ min = 1 → formatEta min max = "1 day") ∧
    (min = max ∧ min ≠ 0 ∧ min ≠ 1 → formatEta min max = toString min ++ " days") ∧
    (min ≠ max → formatEta min max = toString min ++ "–" ++ toString max ++ " days") := by
  refine ⟨?_, ?_, ?_, ?_⟩
  · rintro ⟨h1, h2⟩
    rw [formatEta, if_pos h1, if_pos h2]
  · rintro ⟨h1, h2⟩
    rw [formatEta, if_pos h1, if_neg (by omega), if_pos h2]
  · rintro ⟨h1, h2, h3⟩
    rw [formatEta, if_pos h1, if_neg h2, if_neg h3]
  · intro h
    rw [formatEta, if_neg h]

/-- C9 witness: all four shapes on concrete day counts. -/
theorem formatEta_spec_witness :
    formatEta 0 0 = "Same day" ∧ formatEta 1 1 = "1 day" ∧
    formatEta 3 3 = toString (3 : ℤ) ++ " days" ∧
    formatEta 1 3 = toString (1 : ℤ) ++ "–" ++ toString (3 : ℤ) ++ " days" :=
  ⟨(formatEta_spec 0 0).1 ⟨rfl, rfl⟩,
   (formatEta_spec 1 1).2.1 ⟨rfl, rfl⟩,
   (formatEta_spec 3 3).2.2.1 ⟨rfl, by decide, by decide⟩,
   (formatEta_spec 1 3).2.2.2 (by decide)⟩

/-- C10: the component renders nothing when the summary is missing
(`null`/`undefined` both map to `none`), and a present summary always
renders something — a missing summary can never cause a failure. -/
theorem deliveryOptionsSummary_spec :
    DeliveryOptionsSummary none = none ∧
    ∀ s, (DeliveryOptionsSummary (some s)).isSome = true := by
  refine ⟨rfl, fun s => ?_⟩
  simp only [DeliveryOptionsSummary]
  split <;> simp
